import Mathlib

set_option maxHeartbeats 1000000

/-!
Shallow embedding of the canada_sin library (src/lib.rs): a parser,
checksum validator and classifier for Canadian Social Insurance Numbers.
Rust u8 digit values are represented by Nat; all weighted values are at
most 18 and all sums at most 81, so no 8-bit wrap-around can occur (this
is itself proved below).  Panics (the two unreachable branches in
SIN::parse and the array index in SIN::types) are modelled by the none
case of an Option-valued result.
-/

namespace CanadaSIN

/-- Embedding of the Rust enum SINParseError. -/
inductive SINParseError where
  | TooLong
  | TooShort
  | InvalidChecksum
deriving DecidableEq

/-- Embedding of the Rust enum SINType: all the provinces plus some other categories. -/
inductive SINType where
  | CRAAssigned
  | TemporaryResident
  | BusinessNumber
  | OverseasForces
  | Alberta
  | BritishColumbia
  | Manitoba
  | NewBrunswick
  | NewfoundlandLabrador
  | NorthwestTerritories
  | NovaScotia
  | Nunavut
  | Ontario
  | PrinceEdwardIsland
  | Quebec
  | Saskatchewan
  | Yukon
deriving DecidableEq

/-- Embedding of SINType::is_province: the matches! macro over the thirteen
geographic constructors. -/
def SINType.is_province : SINType → Bool
  | .Alberta => true
  | .BritishColumbia => true
  | .Manitoba => true
  | .NewBrunswick => true
  | .NewfoundlandLabrador => true
  | .NorthwestTerritories => true
  | .NovaScotia => true
  | .Nunavut => true
  | .Ontario => true
  | .PrinceEdwardIsland => true
  | .Quebec => true
  | .Saskatchewan => true
  | .Yukon => true
  | _ => false

/-- Embedding of SINType::is_human: negation of matches!(self, BusinessNumber). -/
def SINType.is_human : SINType → Bool
  | .BusinessNumber => false
  | _ => true

/-- Embedding of the Rust struct SIN.  The Rust field has type an array of
nine u8 values; the length-9 and digit-range facts are proved as theorems
about every constructible value rather than baked into the type. -/
structure SIN where
  inner_digits : List Nat
deriving DecidableEq

/-- Embedding of char::to_digit(10): some digit value for an ASCII decimal
digit, none otherwise. -/
def charToDigit10 (c : Char) : Option Nat :=
  if c.isDigit then some (c.toNat - 48) else none

/-- The digit-filtering loop at the top of SIN::parse: keep each character
that is a decimal digit, in order, drop everything else. -/
def filterDigits (l : List Char) : List Nat :=
  l.filterMap charToDigit10

/-- The first closure of the checksum pipeline in SIN::parse:
digit * (if idx % 2 == 0 then 1 else 2). -/
def weightAt (idx digit : Nat) : Nat :=
  digit * (if idx % 2 = 0 then 1 else 2)

/-- The second closure of the checksum pipeline in SIN::parse: values over 9
are reduced to (val % 10) + 1, others kept. -/
def reduceWeighted (val : Nat) : Nat :=
  if val > 9 then (val % 10) + 1 else val

/-- The luhn_sum value computed inside SIN::parse on the filtered digits:
enumerate, weight by position parity, reduce, sum. -/
def luhnSum (ds : List Nat) : Nat :=
  (ds.enum.map (fun p => reduceWeighted (weightAt p.1 p.2))).sum

/-- Embedding of SIN::parse.  The outer Option models panics: none is the
value of the two unreachable! branches (the impossible match arm on the
digit count, and a failing boxed-slice conversion); some r is a normal
return with result r.  The match on digits.len() is compiled as the
if-chain in source order: n < 9, then n > 9, then 9, then unreachable; a
passing checksum falls through to the boxed-slice conversion, which
succeeds exactly when the length is 9. -/
def SIN.parse (s : String) : Option (Except SINParseError SIN) :=
  let digits := filterDigits s.data
  if digits.length < 9 then some (Except.error SINParseError.TooShort)
  else if digits.length > 9 then some (Except.error SINParseError.TooLong)
  else if digits.length = 9 then
    if luhnSum digits % 10 ≠ 0 then some (Except.error SINParseError.InvalidChecksum)
    else if digits.length = 9 then some (Except.ok ⟨digits⟩)
    else none
  else none

/-- Embedding of SIN::types.  Indexing self.inner_digits[0] is modelled by
head?, with none for the out-of-bounds panic; the unreachable! arm for a
first digit above 9 is likewise none. -/
def SIN.types (sin : SIN) : Option (List SINType) :=
  match sin.inner_digits.head? with
  | some 0 => some [SINType.CRAAssigned]
  | some 1 => some [SINType.NovaScotia, SINType.NewBrunswick,
      SINType.PrinceEdwardIsland, SINType.NewfoundlandLabrador]
  | some 2 => some [SINType.Quebec]
  | some 3 => some [SINType.Quebec]
  | some 4 => some [SINType.Ontario, SINType.OverseasForces]
  | some 5 => some [SINType.Ontario, SINType.OverseasForces]
  | some 6 => some [SINType.Ontario, SINType.Manitoba, SINType.Saskatchewan,
      SINType.Alberta, SINType.NorthwestTerritories, SINType.Nunavut]
  | some 7 => some [SINType.BritishColumbia, SINType.Yukon, SINType.BusinessNumber]
  | some 8 => some [SINType.BusinessNumber]
  | some 9 => some [SINType.TemporaryResident]
  | some _ => none
  | none => none

/-- Embedding of SIN::digits. -/
def SIN.digits (sin : SIN) : List Nat :=
  sin.inner_digits

/-- Embedding of SIN::gen_sin_string_part: render each digit with
to_string and concatenate. -/
def gen_sin_string_part (part : List Nat) : String :=
  String.join (part.map (fun d => toString d))

/-- Embedding of SIN::digits_string. -/
def SIN.digits_string (sin : SIN) : String :=
  gen_sin_string_part sin.inner_digits

/-- Embedding of SIN::digits_dashed_string: the three slices [0..3], [3..6]
and [6..9] rendered and joined by dashes via format!. -/
def SIN.digits_dashed_string (sin : SIN) : String :=
  gen_sin_string_part (sin.inner_digits.take 3) ++ "-" ++
    gen_sin_string_part ((sin.inner_digits.drop 3).take 3) ++ "-" ++
    gen_sin_string_part ((sin.inner_digits.drop 6).take 3)

/-- The derive list on the Rust struct SIN is Debug, Copy, Clone, Eq,
PartialEq; neither Ord nor PartialOrd appears and no manual impl exists,
so the library equips SIN with no comparator.  The absent ordering is
modelled as none. -/
def SIN.derivedOrd : Option (SIN → SIN → Ordering) :=
  none

/-- Modelled from the spec, section 4.3: the classification table exactly
as the specification words it, leading digit to ordered jurisdiction
list.  This is the spec-side definition to be compared against SIN.types. -/
def specClassTable : Nat → List SINType
  | 0 => [SINType.CRAAssigned]
  | 1 => [SINType.NovaScotia, SINType.NewBrunswick,
      SINType.PrinceEdwardIsland, SINType.NewfoundlandLabrador]
  | 2 => [SINType.Quebec]
  | 3 => [SINType.Quebec]
  | 4 => [SINType.Ontario, SINType.OverseasForces]
  | 5 => [SINType.Ontario, SINType.OverseasForces]
  | 6 => [SINType.Ontario, SINType.Manitoba, SINType.Saskatchewan,
      SINType.Alberta, SINType.NorthwestTerritories, SINType.Nunavut]
  | 7 => [SINType.BritishColumbia, SINType.Yukon, SINType.BusinessNumber]
  | 8 => [SINType.BusinessNumber]
  | 9 => [SINType.TemporaryResident]
  | _ => []

/-- All seventeen constructors of SINType, used to state facts about the
whole enumeration. -/
def allSINTypes : List SINType :=
  [SINType.CRAAssigned, SINType.TemporaryResident, SINType.BusinessNumber,
   SINType.OverseasForces, SINType.Alberta, SINType.BritishColumbia,
   SINType.Manitoba, SINType.NewBrunswick, SINType.NewfoundlandLabrador,
   SINType.NorthwestTerritories, SINType.NovaScotia, SINType.Nunavut,
   SINType.Ontario, SINType.PrinceEdwardIsland, SINType.Quebec,
   SINType.Saskatchewan, SINType.Yukon]

/-- The character with code 48 + d, the decimal rendering of a single digit. -/
def decChar (d : Nat) : Char :=
  Char.ofNat (48 + d)

/-- Checksum with the reduction step written as the spec words it in plain
form: a weighted value is replaced by the sum of its two decimal digits. -/
def digitSumLuhnSum (ds : List Nat) : Nat :=
  (ds.enum.map (fun p => weightAt p.1 p.2 / 10 + weightAt p.1 p.2 % 10)).sum

theorem toNat_le_of_isDigit (c : Char) (h : c.isDigit = true) : c.toNat ≤ 57 := by
  unfold Char.isDigit at h
  simp at h
  exact UInt32.toNat_le_of_le (by decide) h.2

theorem le_toNat_of_isDigit (c : Char) (h : c.isDigit = true) : 48 ≤ c.toNat := by
  unfold Char.isDigit at h
  simp at h
  exact UInt32.le_toNat_of_le (by decide) h.1

theorem mem_filterDigits_lt (l : List Char) (x : Nat) (hx : x ∈ filterDigits l) :
    x < 10 := by
  simp only [filterDigits, List.mem_filterMap] at hx
  obtain ⟨c, _, hc⟩ := hx
  unfold charToDigit10 at hc
  by_cases h : c.isDigit
  · simp only [h, if_pos, Option.some.injEq] at hc
    have h1 := toNat_le_of_isDigit c h
    omega
  · simp [h] at hc

theorem filterDigits_cons_of_digit (c : Char) (l : List Char) (h : c.isDigit = true) :
    filterDigits (c :: l) = (c.toNat - 48) :: filterDigits l := by
  simp [filterDigits, List.filterMap_cons, charToDigit10, h]

theorem filterDigits_cons_of_not_digit (c : Char) (l : List Char) (h : c.isDigit = false) :
    filterDigits (c :: l) = filterDigits l := by
  simp [filterDigits, List.filterMap_cons, charToDigit10, h]

theorem charToDigit10_decChar (d : Nat) (hd : d < 10) :
    charToDigit10 (decChar d) = some d := by
  interval_cases d <;> rfl

theorem toString_digit (d : Nat) (hd : d < 10) :
    (toString d).data = [decChar d] := by
  interval_cases d <;> rfl

theorem gen_sin_string_part_data (ds : List Nat) (h : ∀ d ∈ ds, d < 10) :
    (gen_sin_string_part ds).data = ds.map decChar := by
  unfold gen_sin_string_part
  rw [String.data_join]
  induction ds with
  | nil => rfl
  | cons a t ih =>
      simp only [List.map_cons, List.flatten_cons, List.mem_cons] at *
      rw [toString_digit a (h a (Or.inl rfl)), ih (fun d hd => h d (Or.inr hd))]
      rfl

theorem filterDigits_map_decChar (ds : List Nat) (h : ∀ d ∈ ds, d < 10) :
    filterDigits (ds.map decChar) = ds := by
  induction ds with
  | nil => rfl
  | cons a t ih =>
      simp only [List.mem_cons] at h
      have ha := h a (Or.inl rfl)
      simp only [List.map_cons, filterDigits, List.filterMap_cons,
        charToDigit10_decChar a ha]
      exact congrArg (a :: ·) (ih fun d hd => h d (Or.inr hd))

theorem map_decChar_filterDigits_sublist (l : List Char) :
    List.Sublist ((filterDigits l).map decChar) l := by
  induction l with
  | nil => simp [filterDigits]
  | cons c t ih =>
      by_cases h : c.isDigit
      · rw [filterDigits_cons_of_digit c t h]
        have h48 := le_toNat_of_isDigit c h
        have hc : decChar (c.toNat - 48) = c := by
          unfold decChar
          rw [show 48 + (c.toNat - 48) = c.toNat by omega]
          exact Char.ofNat_toNat c
        simpa [hc] using List.Sublist.cons₂ c ih
      · rw [filterDigits_cons_of_not_digit c t (by simpa using h)]
        exact ih.cons c

theorem reduceWeighted_le (val : Nat) (h : val ≤ 18) : reduceWeighted val ≤ 9 := by
  unfold reduceWeighted
  split <;> omega

theorem weightAt_le (i d : Nat) (hd : d < 10) : weightAt i d ≤ 18 := by
  unfold weightAt
  split <;> omega

theorem reduceWeighted_eq_digit_sum (val : Nat) (h : val ≤ 18) :
    reduceWeighted val = val / 10 + val % 10 := by
  unfold reduceWeighted
  split <;> omega

theorem luhnSum_enumFrom_le (n : Nat) (ds : List Nat) (h : ∀ d ∈ ds, d < 10) :
    ((ds.enumFrom n).map (fun p => reduceWeighted (weightAt p.1 p.2))).sum
      ≤ 9 * ds.length := by
  induction ds generalizing n with
  | nil => simp
  | cons a t ih =>
      simp only [List.mem_cons] at h
      have ha : reduceWeighted (weightAt n a) ≤ 9 :=
        reduceWeighted_le _ (weightAt_le n a (h a (Or.inl rfl)))
      have ht := ih (n + 1) (fun d hd => h d (Or.inr hd))
      simp only [List.enumFrom_cons, List.map_cons, List.sum_cons, List.length_cons]
      omega

theorem luhnSum_le (ds : List Nat) (h : ∀ d ∈ ds, d < 10) :
    luhnSum ds ≤ 9 * ds.length :=
  luhnSum_enumFrom_le 0 ds h

theorem luhnSum_eq_digitSum_enumFrom (n : Nat) (ds : List Nat)
    (h : ∀ d ∈ ds, d < 10) :
    ((ds.enumFrom n).map (fun p => reduceWeighted (weightAt p.1 p.2))).sum
      = ((ds.enumFrom n).map (fun p => weightAt p.1 p.2 / 10 + weightAt p.1 p.2 % 10)).sum := by
  induction ds generalizing n with
  | nil => rfl
  | cons a t ih =>
      simp only [List.mem_cons] at h
      have ha : reduceWeighted (weightAt n a) = weightAt n a / 10 + weightAt n a % 10 :=
        reduceWeighted_eq_digit_sum _ (weightAt_le n a (h a (Or.inl rfl)))
      simp only [List.enumFrom_cons, List.map_cons, List.sum_cons, ha,
        ih (n + 1) (fun d hd => h d (Or.inr hd))]

theorem luhnSum_eq_digitSumLuhnSum (ds : List Nat) (h : ∀ d ∈ ds, d < 10) :
    luhnSum ds = digitSumLuhnSum ds :=
  luhnSum_eq_digitSum_enumFrom 0 ds h

theorem parse_ok_iff (s : String) (sin : SIN) :
    SIN.parse s = some (Except.ok sin) ↔
      sin.inner_digits = filterDigits s.data ∧ (filterDigits s.data).length = 9 ∧
        luhnSum (filterDigits s.data) % 10 = 0 := by
  obtain ⟨ds⟩ := sin
  simp only [SIN.parse]
  split_ifs with h1 h2 h3 h4
  · constructor
    · intro h; simp at h
    · rintro ⟨-, h9, -⟩; omega
  · constructor
    · intro h; simp at h
    · rintro ⟨-, h9, -⟩; omega
  · constructor
    · intro h; simp at h
    · rintro ⟨-, -, hc⟩; exact absurd hc h4
  · simp only [Option.some.injEq, Except.ok.injEq, SIN.mk.injEq]
    constructor
    · intro h; exact ⟨h.symm, h3, by omega⟩
    · intro h; exact h.1.symm
  · exact absurd (by omega : (filterDigits s.data).length = 9) h3

/-- C1: for every input string, with n the number of decimal digits left after
filtering, parse returns TooShort when n is below 9, TooLong when n is above 9,
and when n is exactly 9 it returns either InvalidChecksum or a fully validated
SIN holding exactly the filtered digits, never any other value. -/
theorem parse_digit_count_trichotomy (s : String) :
    ((filterDigits s.data).length < 9 →
        SIN.parse s = some (Except.error SINParseError.TooShort))
    ∧ ((filterDigits s.data).length > 9 →
        SIN.parse s = some (Except.error SINParseError.TooLong))
    ∧ ((filterDigits s.data).length = 9 →
        SIN.parse s = some (Except.error SINParseError.InvalidChecksum)
        ∨ SIN.parse s = some (Except.ok ⟨filterDigits s.data⟩)) := by
  refine ⟨fun h1 => ?_, fun h2 => ?_, fun h3 => ?_⟩
  · simp only [SIN.parse]; rw [if_pos h1]
  · simp only [SIN.parse]; rw [if_neg (by omega), if_pos h2]
  · simp only [SIN.parse]
    rw [if_neg (by omega), if_neg (by omega), if_pos h3]
    by_cases h4 : luhnSum (filterDigits s.data) % 10 ≠ 0
    · left; rw [if_pos h4]
    · right; rw [if_neg h4, if_pos h3]

/-- Witness for C1 at the concrete inputs "123", "0000000000" and "123456789". -/
theorem parse_digit_count_trichotomy_witness :
    SIN.parse "123" = some (Except.error SINParseError.TooShort)
    ∧ SIN.parse "0000000000" = some (Except.error SINParseError.TooLong)
    ∧ (SIN.parse "123456789" = some (Except.error SINParseError.InvalidChecksum)
        ∨ SIN.parse "123456789" = some (Except.ok ⟨filterDigits "123456789".data⟩)) :=
  ⟨(parse_digit_count_trichotomy "123").1 (by decide),
   (parse_digit_count_trichotomy "0000000000").2.1 (by decide),
   (parse_digit_count_trichotomy "123456789").2.2 (by decide)⟩

/-- C2: on inputs filtering to exactly 9 digits, parse succeeds iff the
Luhn-style sum is divisible by 10, the sum agrees with the reduction by
decimal digit sums, a failing checksum yields InvalidChecksum, and the
reduction (val mod 10) + 1 coincides with the digit sum for every weighted
value up to 18. -/
theorem parse_checksum_iff (s : String) (h9 : (filterDigits s.data).length = 9) :
    ((∃ sin, SIN.parse s = some (Except.ok sin)) ↔
        luhnSum (filterDigits s.data) % 10 = 0)
    ∧ (luhnSum (filterDigits s.data) % 10 ≠ 0 →
        SIN.parse s = some (Except.error SINParseError.InvalidChecksum))
    ∧ luhnSum (filterDigits s.data) = digitSumLuhnSum (filterDigits s.data)
    ∧ (∀ val ≤ 18, reduceWeighted val = val / 10 + val % 10) := by
  refine ⟨⟨?_, ?_⟩, ?_, ?_, fun v hv => reduceWeighted_eq_digit_sum v hv⟩
  · rintro ⟨sin, hs⟩
    exact ((parse_ok_iff s sin).mp hs).2.2
  · intro hc
    exact ⟨⟨filterDigits s.data⟩, (parse_ok_iff s _).mpr ⟨rfl, h9, hc⟩⟩
  · intro hne
    simp only [SIN.parse]
    rw [if_neg (by omega), if_neg (by omega), if_pos h9, if_pos hne]
  · exact luhnSum_eq_digitSumLuhnSum _ (fun d hd => mem_filterDigits_lt _ d hd)

/-- Witness for C2 at the concrete inputs "123456789" (checksum failure) and
"046454286" (checksum success). -/
theorem parse_checksum_iff_witness :
    SIN.parse "123456789" = some (Except.error SINParseError.InvalidChecksum)
    ∧ (∃ sin, SIN.parse "046454286" = some (Except.ok sin)) :=
  ⟨(parse_checksum_iff "123456789" (by decide)).2.1 (by decide),
   (parse_checksum_iff "046454286" (by decide)).1.mpr (by decide)⟩

theorem parse_ok_props (s : String) (sin : SIN)
    (h : SIN.parse s = some (Except.ok sin)) :
    sin.inner_digits.length = 9
    ∧ (∀ d ∈ sin.inner_digits, d < 10)
    ∧ luhnSum sin.inner_digits % 10 = 0
    ∧ sin.inner_digits = filterDigits s.data
    ∧ List.Sublist (sin.inner_digits.map decChar) s.data := by
  obtain ⟨hd, h9, hc⟩ := (parse_ok_iff s sin).mp h
  refine ⟨by rw [hd]; exact h9, ?_, by rw [hd]; exact hc, hd, ?_⟩
  · intro d hds
    exact mem_filterDigits_lt s.data d (by rw [← hd]; exact hds)
  · rw [hd]
    exact map_decChar_filterDigits_sublist s.data

/-- C4: every SIN produced by a successful parse holds exactly 9 digits, each
below 10, passing the checksum; the stored digits are exactly the filtered
digits of the input, and their character rendering is an order-preserving
subsequence of the input characters. -/
theorem parse_ok_invariants (s : String) (sin : SIN)
    (h : SIN.parse s = some (Except.ok sin)) :
    sin.inner_digits.length = 9
    ∧ (∀ d ∈ sin.inner_digits, d < 10)
    ∧ luhnSum sin.inner_digits % 10 = 0
    ∧ sin.inner_digits = filterDigits s.data
    ∧ List.Sublist (sin.inner_digits.map decChar) s.data :=
  parse_ok_props s sin h

/-- Witness for C4 at the concrete input "046454286". -/
theorem parse_ok_invariants_witness :
    SIN.inner_digits ⟨[0, 4, 6, 4, 5, 4, 2, 8, 6]⟩ = filterDigits "046454286".data
    ∧ (SIN.inner_digits ⟨[0, 4, 6, 4, 5, 4, 2, 8, 6]⟩).length = 9 :=
  ⟨(parse_ok_invariants "046454286" ⟨[0, 4, 6, 4, 5, 4, 2, 8, 6]⟩ (by rfl)).2.2.2.1,
   (parse_ok_invariants "046454286" ⟨[0, 4, 6, 4, 5, 4, 2, 8, 6]⟩ (by rfl)).1⟩

theorem types_head_eq_specClassTable (sin : SIN) (d : Nat) (hd : d < 10)
    (h : sin.inner_digits.head? = some d) :
    SIN.types sin = some (specClassTable d) := by
  unfold SIN.types
  rw [h]
  interval_cases d <;> rfl

/-- C3: for every parsed SIN, types is determined solely by the leading digit
and returns exactly the non-empty ordered list of the specification table in
section 4.3. -/
theorem types_matches_spec_table (s : String) (sin : SIN)
    (h : SIN.parse s = some (Except.ok sin)) :
    ∃ d rest, sin.inner_digits = d :: rest ∧ d < 10
      ∧ SIN.types sin = some (specClassTable d)
      ∧ specClassTable d ≠ []
      ∧ (∀ other : SIN, other.inner_digits.head? = some d →
          SIN.types other = some (specClassTable d)) := by
  obtain ⟨h9, hlt, -, -, -⟩ := parse_ok_props s sin h
  obtain ⟨ds⟩ := sin
  cases ds with
  | nil => simp at h9
  | cons d rest =>
      have hd : d < 10 := hlt d (List.mem_cons_self d rest)
      refine ⟨d, rest, rfl, hd, ?_, ?_, ?_⟩
      · exact types_head_eq_specClassTable ⟨d :: rest⟩ d hd rfl
      · interval_cases d <;> decide
      · intro other hother
        exact types_head_eq_specClassTable other d hd hother

/-- Witness for C3 at the concrete input "734323843", whose leading digit 7
classifies as British Columbia, Yukon or a business number. -/
theorem types_matches_spec_table_witness :
    SIN.types ⟨[7, 3, 4, 3, 2, 3, 8, 4, 3]⟩ = some (specClassTable 7)
    ∧ specClassTable 7 ≠ [] := by
  obtain ⟨d, rest, heq, -, ht, hne, -⟩ :=
    types_matches_spec_table "734323843" ⟨[7, 3, 4, 3, 2, 3, 8, 4, 3]⟩ (by rfl)
  have hd7 : d = 7 := by
    have : (7 : Nat) :: [3, 4, 3, 2, 3, 8, 4, 3] = d :: rest := heq
    injection this with h1 h2
    exact h1.symm
  rw [hd7] at ht hne
  exact ⟨ht, hne⟩

/-- C5: re-parsing the contiguous digit rendering of a successfully parsed SIN
succeeds and yields the same SIN. -/
theorem parse_digits_string_roundtrip (s : String) (sin : SIN)
    (h : SIN.parse s = some (Except.ok sin)) :
    SIN.parse sin.digits_string = some (Except.ok sin) := by
  obtain ⟨h9, hlt, hc, -, -⟩ := parse_ok_props s sin h
  have hdata : (sin.digits_string).data = sin.inner_digits.map decChar :=
    gen_sin_string_part_data sin.inner_digits hlt
  have hfd : filterDigits (sin.digits_string).data = sin.inner_digits := by
    rw [hdata]
    exact filterDigits_map_decChar sin.inner_digits hlt
  exact (parse_ok_iff _ sin).mpr
    ⟨hfd.symm, by rw [hfd]; exact h9, by rw [hfd]; exact hc⟩

/-- Witness for C5 at the concrete input "046454286". -/
theorem parse_digits_string_roundtrip_witness :
    SIN.parse (SIN.digits_string ⟨[0, 4, 6, 4, 5, 4, 2, 8, 6]⟩)
      = some (Except.ok ⟨[0, 4, 6, 4, 5, 4, 2, 8, 6]⟩) :=
  parse_digits_string_roundtrip "046454286" ⟨[0, 4, 6, 4, 5, 4, 2, 8, 6]⟩ (by rfl)

/-- C6: parse depends only on the digit subsequence of the input, a non-digit
character is silently dropped by the filter, and the two example inputs with
and without dashes produce the same validated SIN. -/
theorem parse_separator_tolerance :
    (∀ a b : String, filterDigits a.data = filterDigits b.data →
        SIN.parse a = SIN.parse b)
    ∧ (∀ c : Char, c.isDigit = false → ∀ l : List Char,
        filterDigits (c :: l) = filterDigits l)
    ∧ SIN.parse "046-454-286" = SIN.parse "046454286"
    ∧ SIN.parse "046-454-286" = some (Except.ok ⟨[0, 4, 6, 4, 5, 4, 2, 8, 6]⟩) := by
  refine ⟨?_, ?_, by rfl, by rfl⟩
  · intro a b hab
    simp only [SIN.parse, hab]
  · exact fun c hc l => filterDigits_cons_of_not_digit c l hc

/-- Witness for C6 at the concrete inputs "04 64.54x286" and "046454286", and
the non-digit character x. -/
theorem parse_separator_tolerance_witness :
    SIN.parse "04 64.54x286" = SIN.parse "046454286"
    ∧ filterDigits ('x' :: "123".data) = filterDigits "123".data :=
  ⟨parse_separator_tolerance.1 "04 64.54x286" "046454286" (by rfl),
   parse_separator_tolerance.2.1 'x' (by rfl) "123".data⟩

/-- C7: the contiguous rendering of a SIN with in-range digits is exactly its
digits as characters, the dashed rendering splits them 3-3-3 with exactly two
dashes, and the digits 046454286 render as "046454286" and "046-454-286". -/
theorem renderings_exact (sin : SIN) (_h9 : sin.inner_digits.length = 9)
    (hlt : ∀ d ∈ sin.inner_digits, d < 10) :
    (sin.digits_string).data = sin.inner_digits.map decChar
    ∧ (sin.digits_dashed_string).data =
        (sin.inner_digits.take 3).map decChar ++ ['-']
          ++ ((sin.inner_digits.drop 3).take 3).map decChar ++ ['-']
          ++ ((sin.inner_digits.drop 6).take 3).map decChar
    ∧ SIN.digits_string ⟨[0, 4, 6, 4, 5, 4, 2, 8, 6]⟩ = "046454286"
    ∧ SIN.digits_dashed_string ⟨[0, 4, 6, 4, 5, 4, 2, 8, 6]⟩ = "046-454-286" := by
  refine ⟨gen_sin_string_part_data _ hlt, ?_, by rfl, by rfl⟩
  have h1 : ∀ d ∈ sin.inner_digits.take 3, d < 10 :=
    fun d hd => hlt d (List.mem_of_mem_take hd)
  have h2 : ∀ d ∈ (sin.inner_digits.drop 3).take 3, d < 10 :=
    fun d hd => hlt d (List.mem_of_mem_drop (List.mem_of_mem_take hd))
  have h3 : ∀ d ∈ (sin.inner_digits.drop 6).take 3, d < 10 :=
    fun d hd => hlt d (List.mem_of_mem_drop (List.mem_of_mem_take hd))
  simp only [SIN.digits_dashed_string, String.data_append,
    gen_sin_string_part_data _ h1, gen_sin_string_part_data _ h2,
    gen_sin_string_part_data _ h3]

/-- C8 counterexample: the set of tags on which is_province returns true has
thirteen elements (ten provinces and three territories), not ten, so the
claimed count of geographic tags is wrong even though the enumerated set is
exactly the one the code accepts. -/
theorem is_province_count_is_thirteen_not_ten :
    (allSINTypes.filter (fun t => SINType.is_province t)).length ≠ 10
    ∧ (allSINTypes.filter (fun t => SINType.is_province t)).length = 13 := by
  decide

/-- C8 amended: is_province returns true exactly for the thirteen geographic
province and territory tags, false for the four special categories, and
is_human is false exactly for BusinessNumber. -/
theorem is_province_is_human_facets :
    (∀ t : SINType, t.is_province = true ↔
        t ∈ [SINType.Alberta, SINType.BritishColumbia, SINType.Manitoba,
          SINType.NewBrunswick, SINType.NewfoundlandLabrador,
          SINType.NorthwestTerritories, SINType.NovaScotia, SINType.Nunavut,
          SINType.Ontario, SINType.PrinceEdwardIsland, SINType.Quebec,
          SINType.Saskatchewan, SINType.Yukon])
    ∧ (∀ t : SINType, t.is_province = false ↔
        t ∈ [SINType.CRAAssigned, SINType.TemporaryResident,
          SINType.BusinessNumber, SINType.OverseasForces])
    ∧ (∀ t : SINType, t.is_human = false ↔ t = SINType.BusinessNumber) := by
  refine ⟨fun t => ?_, fun t => ?_, fun t => ?_⟩ <;> cases t <;> decide

/-- C9 counterexample: the derive list on the SIN struct carries Eq and
PartialEq but neither Ord nor PartialOrd, so the library defines no ordering
on SIN at all; the modelled comparator is absent. -/
theorem sin_derivedOrd_eq_none : SIN.derivedOrd = none := rfl

/-- C9 amended: equality of SIN values is structural over the digit sequence;
two values are equal exactly when their digit lists agree position by
position. -/
theorem sin_eq_iff_inner_digits_eq :
    ∀ a b : SIN, a = b ↔ a.inner_digits = b.inner_digits := by
  intro a b
  obtain ⟨x⟩ := a
  obtain ⟨y⟩ := b
  simp [SIN.mk.injEq]

/-- C10: parse never reaches a panic on any input (the unreachable branches
are dead and the result is always a normal return), every weighted value in
the checksum stays at or below 18 with its reduction at or below 9, the full
sum on a 9-digit list stays at or below 81 so no 8-bit overflow can occur,
and the all-nines input fails cleanly with InvalidChecksum. -/
theorem parse_total_no_overflow (s : String) :
    (SIN.parse s).isSome = true
    ∧ (∀ d ∈ filterDigits s.data, ∀ i : Nat,
        weightAt i d ≤ 18 ∧ reduceWeighted (weightAt i d) ≤ 9)
    ∧ ((filterDigits s.data).length = 9 → luhnSum (filterDigits s.data) ≤ 81)
    ∧ SIN.parse "999999999" = some (Except.error SINParseError.InvalidChecksum) := by
  refine ⟨?_, ?_, ?_, by rfl⟩
  · simp only [SIN.parse]
    split_ifs with h1 h2 h3 h4
    · rfl
    · rfl
    · rfl
    · rfl
    · exact absurd (by omega : (filterDigits s.data).length = 9) h3
  · intro d hd i
    have hlt : d < 10 := mem_filterDigits_lt s.data d hd
    exact ⟨weightAt_le i d hlt, reduceWeighted_le _ (weightAt_le i d hlt)⟩
  · intro h9
    have := luhnSum_le (filterDigits s.data)
      (fun d hd => mem_filterDigits_lt s.data d hd)
    omega

/-- Witness for C10 at the concrete input "999999999", the digit 9 and the
odd position 1. -/
theorem parse_total_no_overflow_witness :
    (SIN.parse "999999999").isSome = true
    ∧ weightAt 1 9 ≤ 18 ∧ reduceWeighted (weightAt 1 9) ≤ 9
    ∧ luhnSum (filterDigits "999999999".data) ≤ 81 := by
  have h := parse_total_no_overflow "999999999"
  have h2 := h.2.1 9 (by decide) 1
  exact ⟨h.1, h2.1, h2.2, h.2.2.1 (by decide)⟩

/-- Witness for C7 at the concrete digit list 046454286. -/
theorem renderings_exact_witness :
    (SIN.digits_string ⟨[0, 4, 6, 4, 5, 4, 2, 8, 6]⟩).data
        = [0, 4, 6, 4, 5, 4, 2, 8, 6].map decChar
    ∧ SIN.digits_dashed_string ⟨[0, 4, 6, 4, 5, 4, 2, 8, 6]⟩ = "046-454-286" :=
  ⟨(renderings_exact ⟨[0, 4, 6, 4, 5, 4, 2, 8, 6]⟩ (by decide) (by decide)).1,
   (renderings_exact ⟨[0, 4, 6, 4, 5, 4, 2, 8, 6]⟩ (by decide) (by decide)).2.2.2⟩

end CanadaSIN
